import Mathlib

/-!
Verification of the playback synchronization engine of the `audioFE`
repository (a MusicXML player). The engine lives in `src/Player.ts`
(timemap index construction, transport operations `moveTo` / `play` /
`pause` / `rewind`, the per-frame synchronization tick, the external
timing-object change handler, and the output event router) and in the
built-in synthesizer sink `SoundFontOutput`. Millisecond timestamps,
which are JS numbers in the source, are embedded as rationals; the
comparator constant `Number.EPSILON` is embedded as `1 / 2 ^ 52`.
-/

namespace AudioFE

/-- One entry of the raw (non-consolidated) timemap supplied by the
converter collaborator: a measure index observed at a timestamp. -/
structure RawEntry where
  measure : Nat
  timestamp : ℚ
deriving DecidableEq

/-- One record of the consolidated timemap index `Player._timemap`:
the canonical start and duration of a measure. -/
structure MeasureRecord where
  start : ℚ
  duration : ℚ
deriving DecidableEq

/-- JS `Number.EPSILON`, used by the binary-search comparator. -/
def EPS : ℚ := 1 / 2 ^ 52

/-- Duration assigned when a measure is first seen at position `i` of the
raw sequence, entry `e`: the delta to the immediately following raw
entry, or 0 when `i` is the last raw position
(`i < timemap.length - 1 ? timemap[i + 1].timestamp - entry.timestamp : 0`). -/
def durOf (raw : List RawEntry) (i : Nat) (e : RawEntry) : ℚ :=
  if i < raw.length - 1 then (raw.getD (i + 1) e).timestamp - e.timestamp else 0

/-- Body of the `forEach` loop that builds `Player._timemap`: assign a
record on first sight of a measure index
(`if (typeof this._timemap[entry.measure] === undefined)` in effect), leave the
map unchanged otherwise. -/
def tmStep (raw : List RawEntry) (i : Nat) (e : RawEntry)
    (tm : Nat → Option MeasureRecord) : Nat → Option MeasureRecord :=
  if tm e.measure = none then
    fun m => if m = e.measure then some ⟨e.timestamp, durOf raw i e⟩ else tm m
  else tm

/-- The `forEach` iteration over the raw timemap, carrying the running
element index `i` as the source callback does. -/
def tmBuildFrom (raw : List RawEntry) :
    Nat → List RawEntry → (Nat → Option MeasureRecord) → Nat → Option MeasureRecord
  | _, [], tm => tm
  | i, e :: rest, tm => tmBuildFrom raw (i + 1) rest (tmStep raw i e tm)

/-- The timemap index built in the `Player` constructor (lines 152-166):
start from the empty map and run the loop over the whole raw sequence. -/
def buildTimemap (raw : List RawEntry) : Nat → Option MeasureRecord :=
  tmBuildFrom raw 0 raw (fun _ => none)

lemma tmStep_apply_of_some (raw : List RawEntry) (i : Nat) (e : RawEntry)
    (tm : Nat → Option MeasureRecord) (m : Nat) (r : MeasureRecord)
    (h : tm m = some r) : tmStep raw i e tm m = some r := by
  unfold tmStep
  by_cases hc : tm e.measure = none
  · by_cases hme : m = e.measure
    · rw [← hme, h] at hc
      exact absurd hc (by simp)
    · simp [hc, hme, h]
  · simp [hc, h]

lemma tmStep_apply_of_none (raw : List RawEntry) (i : Nat) (e : RawEntry)
    (tm : Nat → Option MeasureRecord) (m : Nat)
    (h : tm m = none) (hne : e.measure ≠ m) : tmStep raw i e tm m = none := by
  unfold tmStep
  by_cases hc : tm e.measure = none
  · have hme : ¬m = e.measure := fun hme => hne hme.symm
    simp [hc, hme, h]
  · simp [hc, h]

lemma tmStep_hit (raw : List RawEntry) (i : Nat) (e : RawEntry)
    (tm : Nat → Option MeasureRecord) (h : tm e.measure = none) :
    tmStep raw i e tm e.measure = some ⟨e.timestamp, durOf raw i e⟩ := by
  unfold tmStep
  simp [h]

lemma tmBuildFrom_preserve (raw : List RawEntry) :
    ∀ (l : List RawEntry) (k : Nat) (tm : Nat → Option MeasureRecord)
      (m : Nat) (r : MeasureRecord), tm m = some r →
      tmBuildFrom raw k l tm m = some r := by
  intro l
  induction l with
  | nil => intro k tm m r h; exact h
  | cons e rest ih =>
      intro k tm m r h
      exact ih (k + 1) _ m r (tmStep_apply_of_some raw k e tm m r h)

lemma tmBuildFrom_first (raw : List RawEntry) :
    ∀ (l : List RawEntry) (k : Nat) (tm : Nat → Option MeasureRecord)
      (m : Nat) (j : Nat) (hj : j < l.length),
      tm m = none → (l.get ⟨j, hj⟩).measure = m →
      (∀ j' (hj' : j' < l.length), j' < j → (l.get ⟨j', hj'⟩).measure ≠ m) →
      tmBuildFrom raw k l tm m =
        some ⟨(l.get ⟨j, hj⟩).timestamp, durOf raw (k + j) (l.get ⟨j, hj⟩)⟩ := by
  intro l
  induction l with
  | nil => intro k tm m j hj; exact absurd hj (by simp)
  | cons e rest ih =>
      intro k tm m j hj hnone hm hfirst
      cases j with
      | zero =>
          simp only [List.get] at hm ⊢
          have hset : tmStep raw k e tm m = some ⟨e.timestamp, durOf raw k e⟩ := by
            rw [← hm] at hnone ⊢
            exact tmStep_hit raw k e tm hnone
          show tmBuildFrom raw (k + 1) rest (tmStep raw k e tm) m = _
          rw [tmBuildFrom_preserve raw rest (k + 1) _ m _ hset]
          simp
      | succ j0 =>
          have hne : e.measure ≠ m := by
            have := hfirst 0 (by simp) (Nat.succ_pos j0)
            simpa using this
          have hnone2 : tmStep raw k e tm m = none :=
            tmStep_apply_of_none raw k e tm m hnone hne
          have hj0 : j0 < rest.length := by
            simpa [Nat.succ_lt_succ_iff] using hj
          have hm0 : (rest.get ⟨j0, hj0⟩).measure = m := by
            simpa using hm
          have hfirst0 : ∀ j' (hj' : j' < rest.length), j' < j0 →
              (rest.get ⟨j', hj'⟩).measure ≠ m := by
            intro j' hj' hlt
            have := hfirst (j' + 1) (by simpa [Nat.succ_lt_succ_iff] using hj')
              (Nat.succ_lt_succ hlt)
            simpa using this
          show tmBuildFrom raw (k + 1) rest (tmStep raw k e tm) m = _
          rw [ih (k + 1) _ m j0 hj0 hnone2 hm0 hfirst0]
          have harith : k + 1 + j0 = k + (j0 + 1) := by omega
          simp [harith]

/-- C1: for a raw timemap sorted by ascending timestamp, the index built
at construction maps each measure index to at most one record (the index
is a partial function), and when position `j` is the first occurrence of
measure `m` in the raw sequence, the record of `m` is defined, its start
is the timestamp at `j`, and its duration is the delta to the
immediately following raw entry (0 when `j` is the last raw position);
in particular later occurrences of `m` never overwrite the record. -/
theorem timemap_build_first_occurrence (raw : List RawEntry)
    (hsorted : List.Chain' (fun a b => a.timestamp ≤ b.timestamp) raw)
    (m j : Nat) (hj : j < raw.length)
    (hm : (raw.get ⟨j, hj⟩).measure = m)
    (hfirst : ∀ j' (hj' : j' < raw.length), j' < j → (raw.get ⟨j', hj'⟩).measure ≠ m) :
    buildTimemap raw m =
      some ⟨(raw.get ⟨j, hj⟩).timestamp, durOf raw j (raw.get ⟨j, hj⟩)⟩ := by
  have := tmBuildFrom_first raw raw 0 (fun _ => none) m j hj rfl hm hfirst
  simpa [buildTimemap] using this

/-- The four-entry raw timemap of the specification scenario, featuring a
repeat back to measure 0. -/
def raw4 : List RawEntry := [⟨0, 0⟩, ⟨1, 500⟩, ⟨0, 900⟩, ⟨2, 1400⟩]

/-- Witness for C1 on the scenario timemap: measure 0 first occurs at
position 0, so its record has start 0 and duration 500. -/
theorem timemap_build_first_occurrence_witness :
    buildTimemap raw4 0 = some ⟨0, 500⟩ := by
  have hs : List.Chain' (fun a b => a.timestamp ≤ b.timestamp) raw4 := by
    simp only [raw4, List.chain'_cons, List.chain'_singleton, and_true]
    norm_num
  have h := timemap_build_first_occurrence raw4 hs 0 0 (by simp [raw4]) rfl
    (fun j' hj' hlt => absurd hlt (Nat.not_lt_zero j'))
  rw [h]
  simp only [raw4, durOf, List.get, List.getD, List.length_cons, List.length_nil]
  norm_num

/-- C6 counterexample: building the timemap index from the empty raw
sequence does not fail. The construction loop in `Player` has no error
path at all: on the empty sequence it completes at once and yields the
index that assigns no record to any measure; no `EmptyTimemap` error
exists anywhere in the code. -/
theorem buildTimemap_nil_total : buildTimemap [] = fun _ => none := rfl

/-- C6 amended: building the timemap index from the empty raw sequence
completes normally (there is no `EmptyTimemap` failure in the code) and
yields an index with no record for any measure index. -/
theorem buildTimemap_nil (m : Nat) : buildTimemap [] m = none := rfl

/-- State of the underlying event-stream (MIDI) player collaborator.
Modelled from the spec: the `midi-player` package is not part of this
repository; the spec (data model) gives PlaybackState as the enum
Stopped / Playing / Paused, with `play`/`resume` entering Playing,
`pause` entering Paused and `stop` entering Stopped. -/
inductive MidiState where
  | Stopped
  | Playing
  | Paused
deriving DecidableEq

/-- The mutable engine state of `Player`: the two real-time anchors, the
pause instant, the tracked measure position, the state of the underlying
event-stream player, the last seek instructed to it, and the last
position (and optional duration) pushed to the rendering collaborator
via `renderer.moveTo`. -/
structure PState where
  playbackStart : ℚ
  playbackPause : ℚ
  measureIndex : Nat
  measureStart : ℚ
  measureOffset : ℚ
  midi : MidiState
  seekTo : Option ℚ
  rendered : Nat × ℚ × ℚ
  renderedDur : Option ℚ
deriving DecidableEq

/-- The engine state right after construction (`Player` constructor,
lines 144-150): all anchors zero, measure 0, player stopped. -/
def initState : PState :=
  { playbackStart := 0
    playbackPause := 0
    measureIndex := 0
    measureStart := 0
    measureOffset := 0
    midi := MidiState.Stopped
    seekTo := none
    rendered := (0, 0, 0)
    renderedDur := none }

/-- Fallback record for a timemap lookup; the source would throw on a
missing measure (`this._timemap[measureIndex].start` on `undefined`),
so theorems only use states whose lookups are defined. -/
def defaultRecord : MeasureRecord := ⟨0, 0⟩

/-- `Player.moveTo` (lines 192-210): seek the underlying player to
`this._timemap[measureIndex].start + measureOffset` (the canonical start
from the index, not the passed `measureStart`), set the measure-local
anchor to `now - measureOffset`, the global anchor to `now - timestamp`,
record the pause instant, and pass the arguments through to
`renderer.moveTo`. The underlying player state is not changed. -/
def moveToStep (tm : Nat → Option MeasureRecord) (s : PState)
    (i : Nat) (ms o now : ℚ) : PState :=
  let timestamp := ((tm i).getD defaultRecord).start + o
  { s with seekTo := some timestamp
           measureIndex := i
           measureStart := now - o
           playbackStart := now - timestamp
           playbackPause := now
           rendered := (i, ms, o)
           renderedDur := none }

/-- `Player.play` / `Player._play` (lines 212-215, 275-287): no-op while
Playing; otherwise, if the underlying player is Paused or the global
anchor is off its zero sentinel, shift both anchors forward by the pause
duration `now - playbackPause` (resume); else anchor to `now` at measure
0 (fresh start). The underlying player is then resumed or started. -/
def playStep (s : PState) (now : ℚ) : PState :=
  if s.midi = MidiState.Playing then s
  else if s.midi = MidiState.Paused ∨ s.playbackStart ≠ 0 then
    { s with playbackStart := s.playbackStart + (now - s.playbackPause)
             measureStart := s.measureStart + (now - s.playbackPause)
             midi := MidiState.Playing }
  else
    { s with playbackStart := now
             measureIndex := 0
             measureStart := now
             midi := MidiState.Playing }

/-- The resume outcome of `play()` as the spec describes it: both
anchors shifted forward by the pause duration, player Playing. -/
def playResume (s : PState) (now : ℚ) : PState :=
  { s with playbackStart := s.playbackStart + (now - s.playbackPause)
           measureStart := s.measureStart + (now - s.playbackPause)
           midi := MidiState.Playing }

/-- The fresh-start outcome of `play()` as the spec describes it: both
anchors at `now`, measure 0, player Playing. -/
def playFresh (s : PState) (now : ℚ) : PState :=
  { s with playbackStart := now
           measureIndex := 0
           measureStart := now
           midi := MidiState.Playing }

/-- `Player.pause` (lines 217-221): no-op unless the underlying player
is Playing; otherwise pause it and record the pause instant. -/
def pauseStep (s : PState) (now : ℚ) : PState :=
  if s.midi = MidiState.Playing then
    { s with midi := MidiState.Paused, playbackPause := now }
  else s

/-- `Player.rewind` (lines 223-227): stop the underlying player, reset
the global anchor to the zero sentinel, and seek the rendering
collaborator to measure 0 offset 0. -/
def rewindStep (s : PState) : PState :=
  { s with midi := MidiState.Stopped
           playbackStart := 0
           rendered := (0, 0, 0)
           renderedDur := none }

/-- `Player._handleTimingsrcChange` (lines 339-352): map the external
clock vector to a transport command — zero velocity and zero position
rewinds, zero velocity and nonzero position pauses, nonzero velocity
plays. -/
def handleChange (s : PState) (position velocity now : ℚ) : PState :=
  if velocity = 0 then
    if position = 0 then rewindStep s else pauseStep s now
  else playStep s now

/-- First index of the raw sequence whose timestamp is within `EPS` of
the target, mirroring the comparator of `synchronizeMidi`
(`Math.abs(d) < Number.EPSILON`). -/
def findEqIdx (t : ℚ) : List RawEntry → Option Nat
  | [] => none
  | e :: rest =>
    if |e.timestamp - t| < EPS then some 0
    else (findEqIdx t rest).map (· + 1)

/-- Number of raw entries strictly before the target timestamp. -/
def countLt (t : ℚ) : List RawEntry → Nat
  | [] => 0
  | e :: rest => (if e.timestamp < t then 1 else 0) + countLt t rest

/-- Modelled from the spec: the helper `binarySearch` is imported from
`src/helpers`, which is not included under `src/`. Per the spec, the
search over the raw sequence returns the index of an entry comparing
equal to the target under the epsilon comparator (ties resolved by first
match in search order), and otherwise the one-indexed complement
encoding `-(insertionPoint) - 1` of the insertion point, from which the
engine selects the floor entry. -/
def binarySearch (l : List RawEntry) (t : ℚ) : Int :=
  match findEqIdx t l with
  | some i => (i : Int)
  | none => -(countLt t l : Int) - 1

/-- One tick of `synchronizeMidi` (lines 289-321): while Playing, binary
search the raw timemap for the elapsed timeline time `now -
playbackStart`, select the floor entry on a non-exact match
(`Math.max(0, -index - 2)`), reset the measure-local anchor to `now`
when the resolved measure differs from the tracked one, clamp the
measure offset at 0, and push index, canonical start, offset and
canonical duration to the rendering collaborator. -/
def tick (raw : List RawEntry) (tm : Nat → Option MeasureRecord)
    (s : PState) (now : ℚ) : PState :=
  if s.midi ≠ MidiState.Playing then s
  else
    let r := binarySearch raw (now - s.playbackStart)
    let j : Nat := if 0 ≤ r then r.toNat else (-r - 2).toNat
    let entry := raw.getD j ⟨0, 0⟩
    let mIdx := if s.measureIndex ≠ entry.measure then entry.measure else s.measureIndex
    let mSt := if s.measureIndex ≠ entry.measure then now else s.measureStart
    let off := max 0 (now - mSt)
    let cur := (tm mIdx).getD defaultRecord
    { s with measureIndex := mIdx
             measureStart := mSt
             measureOffset := off
             rendered := (mIdx, cur.start, off)
             renderedDur := some cur.duration }

/-- A one-entry raw timemap: measure 0 starting at timestamp 0. -/
def raw1 : List RawEntry := [⟨0, 0⟩]

/-- The timemap index built from `raw1`. -/
def tm1 : Nat → Option MeasureRecord := buildTimemap raw1

lemma tm1_zero : tm1 0 = some ⟨0, 0⟩ := by
  simp [tm1, buildTimemap, raw1, tmBuildFrom, tmStep, durOf]

/-- C3 counterexample: with the timemap index of `raw1` (measure 0 has
canonical start 0), calling `moveTo(0, 100, 0)` at `now = 1000` sets the
global anchor to `1000 - (timemap[0].start + 0) = 1000`, not to
`now - (measureStartMs + measureOffsetMs) = 900` as the claim states for
every passed `measureStartMs`, and seeks the underlying player to 0, not
to `measureStartMs + measureOffsetMs = 100`: the code derives the seek
target from the canonical start in the index and ignores the passed
`measureStart` for anchoring and seeking. -/
theorem moveTo_counterexample :
    (moveToStep tm1 initState 0 100 0 1000).playbackStart ≠ 1000 - (100 + 0) ∧
    (moveToStep tm1 initState 0 100 0 1000).seekTo ≠ some (100 + 0) := by
  constructor <;> simp [moveToStep, tm1_zero, defaultRecord] <;> norm_num

/-- C3 amended: for every measure `i` present in the timemap index (the
code reads `timemap[i].start` and would throw otherwise), every passed
`measureStartMs` value `s` — canonical or not — and every prior state,
`moveTo(i, s, o)` recomputes the measure-local anchor as `now - o`,
records the pause instant, does not change the state of the underlying
player, and passes `{i, s, o}` through to the renderer, so a position
read immediately afterwards yields exactly `{i, s, o}`; the
timeline-global anchor always becomes `now - (timemap[i].start + o)`
and the seek target `timemap[i].start + o`, which equal `now - (s + o)`
and `s + o` exactly when the passed `s` equals the canonical start of
measure `i` (the code derives both from the index, not from the passed
value). -/
theorem moveTo_amended (tm : Nat → Option MeasureRecord) (s : PState)
    (i : Nat) (ms o now : ℚ) (r : MeasureRecord)
    (hi : tm i = some r) :
    (moveToStep tm s i ms o now).measureStart = now - o ∧
    (moveToStep tm s i ms o now).playbackPause = now ∧
    (moveToStep tm s i ms o now).midi = s.midi ∧
    (moveToStep tm s i ms o now).measureIndex = i ∧
    (moveToStep tm s i ms o now).rendered = (i, ms, o) ∧
    (moveToStep tm s i ms o now).playbackStart = now - (r.start + o) ∧
    (moveToStep tm s i ms o now).seekTo = some (r.start + o) ∧
    ((moveToStep tm s i ms o now).playbackStart = now - (ms + o) ↔ ms = r.start) ∧
    ((moveToStep tm s i ms o now).seekTo = some (ms + o) ↔ ms = r.start) := by
  refine ⟨?_, ?_, ?_, ?_, ?_, ?_, ?_, ?_, ?_⟩
  · simp [moveToStep]
  · simp [moveToStep]
  · simp [moveToStep]
  · simp [moveToStep]
  · simp [moveToStep]
  · simp [moveToStep, hi]
  · simp [moveToStep, hi]
  · simp only [moveToStep, hi, Option.getD_some]
    constructor
    · intro h
      linarith
    · intro h
      rw [h]
  · simp only [moveToStep, hi, Option.getD_some, Option.some.injEq]
    constructor
    · intro h
      linarith
    · intro h
      rw [h]

/-- Witness for C3 amended: on `raw1` (canonical start of measure 0 is
0), `moveTo(0, 7, 10)` at `now = 1000` with the non-canonical passed
start 7 anchors the measure at 990, records the pause instant, keeps the
player stopped, renders `{0, 7, 10}`, anchors the timeline at
`1000 - (0 + 10)` and seeks to `0 + 10`; the claimed values
`1000 - (7 + 10)` and `7 + 10` are attained exactly when `7 = 0`. -/
theorem moveTo_amended_witness :
    (moveToStep tm1 initState 0 7 10 1000).measureStart = 1000 - 10 ∧
    (moveToStep tm1 initState 0 7 10 1000).playbackPause = 1000 ∧
    (moveToStep tm1 initState 0 7 10 1000).midi = initState.midi ∧
    (moveToStep tm1 initState 0 7 10 1000).measureIndex = 0 ∧
    (moveToStep tm1 initState 0 7 10 1000).rendered = (0, 7, 10) ∧
    (moveToStep tm1 initState 0 7 10 1000).playbackStart = 1000 - ((0 : ℚ) + 10) ∧
    (moveToStep tm1 initState 0 7 10 1000).seekTo = some ((0 : ℚ) + 10) ∧
    ((moveToStep tm1 initState 0 7 10 1000).playbackStart = 1000 - (7 + 10) ↔ (7 : ℚ) = 0) ∧
    ((moveToStep tm1 initState 0 7 10 1000).seekTo = some (7 + 10) ↔ (7 : ℚ) = 0) :=
  moveTo_amended tm1 initState 0 7 10 1000 ⟨0, 0⟩ tm1_zero

/-- C4: after `rewind()`, from every prior state, the rendered playback
position is `{0, 0, 0}`, the global anchor is back at the zero sentinel,
the underlying player is stopped, and the engine is equivalent to the
never-started state: a subsequent `play()` at any instant produces the
same anchors, measure position, player state and rendered position as a
first `play()` from the freshly constructed state (the surviving fields
`playbackPause`, `measureOffset` and `seekTo` are overwritten before the
engine ever reads them). -/
theorem rewind_resets (s : PState) (now : ℚ) :
    (rewindStep s).rendered = (0, 0, 0) ∧
    (rewindStep s).playbackStart = 0 ∧
    (rewindStep s).midi = MidiState.Stopped ∧
    (playStep (rewindStep s) now).playbackStart = (playStep initState now).playbackStart ∧
    (playStep (rewindStep s) now).measureIndex = (playStep initState now).measureIndex ∧
    (playStep (rewindStep s) now).measureStart = (playStep initState now).measureStart ∧
    (playStep (rewindStep s) now).midi = (playStep initState now).midi ∧
    (playStep (rewindStep s) now).rendered = (playStep initState now).rendered := by
  refine ⟨rfl, rfl, rfl, ?_, ?_, ?_, ?_, ?_⟩ <;>
    simp [playStep, rewindStep, initState]

/-- C5: pausing while Playing and resuming Δt milliseconds later leaves
the timeline position and the measure-local position exactly where they
were at the pause instant: the resume branch shifts both anchors forward
by the pause duration `now - playbackPause`, cancelling Δt exactly
(rational arithmetic, so within any epsilon). -/
theorem pause_play_resumes (s : PState) (t0 d : ℚ)
    (hmidi : s.midi = MidiState.Playing) :
    (t0 + d) - (playStep (pauseStep s t0) (t0 + d)).playbackStart
      = t0 - s.playbackStart ∧
    (t0 + d) - (playStep (pauseStep s t0) (t0 + d)).measureStart
      = t0 - s.measureStart ∧
    (playStep (pauseStep s t0) (t0 + d)).midi = MidiState.Playing := by
  have hp : pauseStep s t0 = { s with midi := MidiState.Paused, playbackPause := t0 } := by
    simp [pauseStep, hmidi]
  rw [hp]
  refine ⟨?_, ?_, ?_⟩
  · simp [playStep]
  · simp [playStep]
  · simp [playStep]

/-- Witness for C5: from a state that started fresh at 5ms, pausing at
10ms and resuming at 17ms preserves the elapsed timeline time and the
measure-local time. -/
theorem pause_play_resumes_witness :
    (playStep initState 5).midi = MidiState.Playing ∧
    ((10 : ℚ) + 7) - (playStep (pauseStep (playStep initState 5) 10) ((10 : ℚ) + 7)).playbackStart
      = (10 : ℚ) - (playStep initState 5).playbackStart ∧
    ((10 : ℚ) + 7) - (playStep (pauseStep (playStep initState 5) 10) ((10 : ℚ) + 7)).measureStart
      = (10 : ℚ) - (playStep initState 5).measureStart := by
  have hm : (playStep initState 5).midi = MidiState.Playing := by
    simp [playStep, initState]
  have h := pause_play_resumes (playStep initState 5) 10 7 hm
  exact ⟨hm, h.1, h.2.1⟩

/-- Engine states reachable from construction through the public
transport surface (play, pause, moveTo, rewind, the synchronization
tick and the external clock handler), with a nondecreasing real
clock as `performance.now()` provides. -/
inductive Reach (raw : List RawEntry) (tm : Nat → Option MeasureRecord) :
    PState → ℚ → Prop where
  | base : Reach raw tm initState 0
  | stepPlay {s t} (now : ℚ) : Reach raw tm s t → t ≤ now →
      Reach raw tm (playStep s now) now
  | stepPause {s t} (now : ℚ) : Reach raw tm s t → t ≤ now →
      Reach raw tm (pauseStep s now) now
  | stepMoveTo {s t} (i : Nat) (ms o now : ℚ) : Reach raw tm s t → t ≤ now →
      Reach raw tm (moveToStep tm s i ms o now) now
  | stepRewind {s t} : Reach raw tm s t → Reach raw tm (rewindStep s) t
  | stepTick {s t} (now : ℚ) : Reach raw tm s t → t ≤ now →
      Reach raw tm (tick raw tm s now) now
  | stepChange {s t} (p v now : ℚ) : Reach raw tm s t → t ≤ now →
      Reach raw tm (handleChange s p v now) now

/-- A two-entry raw timemap: measure 0 at 0ms, measure 1 at 500ms. -/
def raw2 : List RawEntry := [⟨0, 0⟩, ⟨1, 500⟩]

/-- The timemap index built from `raw2`. -/
def tm2 : Nat → Option MeasureRecord := buildTimemap raw2

lemma tm2_zero : tm2 0 = some ⟨0, 500⟩ := by
  simp only [tm2, buildTimemap, raw2, tmBuildFrom, tmStep, durOf]
  norm_num [List.getD]

/-- A reachable engine state that is Paused with the global anchor
exactly at the zero sentinel: start fresh at 5ms, seek via
`moveTo(0, 0, 1000)` at 1000ms (which lands the anchor at
`1000 - (0 + 1000) = 0`), then pause at 1100ms. -/
def pausedAtZero : PState :=
  pauseStep (moveToStep tm2 (playStep initState 5) 0 0 1000 1000) 1100

/-- C7 counterexample: `pausedAtZero` is reachable, is Paused, and has
its global anchor at the zero sentinel, yet `play()` at 1200ms takes the
resume branch (the anchor becomes `0 + (1200 - 1100) = 100`, not `now =
1200` as the fresh-start branch would set): the branch is decided by
`state === Paused || playbackStart !== 0`, so the zero sentinel is not
the only signal separating never-played from paused-mid-playback. -/
theorem play_branch_counterexample :
    Reach raw2 tm2 pausedAtZero 1100 ∧
    pausedAtZero.midi = MidiState.Paused ∧
    pausedAtZero.playbackStart = 0 ∧
    (playStep pausedAtZero 1200).playbackStart = 100 ∧
    (playStep pausedAtZero 1200).playbackStart ≠ 1200 := by
  have hreach : Reach raw2 tm2 pausedAtZero 1100 :=
    Reach.stepPause 1100
      (Reach.stepMoveTo 0 0 1000 1000
        (Reach.stepPlay 5 Reach.base (by norm_num)) (by norm_num))
      (by norm_num)
  have hpm : (playStep initState 5).midi = MidiState.Playing := by
    simp [playStep, initState]
  have hmv : (moveToStep tm2 (playStep initState 5) 0 0 1000 1000).midi
      = MidiState.Playing := by
    simp [moveToStep, hpm]
  have hmidi : pausedAtZero.midi = MidiState.Paused := by
    simp [pausedAtZero, pauseStep, hmv]
  have hanchor : pausedAtZero.playbackStart = 0 := by
    simp [pausedAtZero, pauseStep, hmv, moveToStep, tm2_zero, defaultRecord, hpm]
  have hplay : (playStep pausedAtZero 1200).playbackStart = 100 := by
    have hpp : pausedAtZero.playbackPause = 1100 := by
      simp [pausedAtZero, pauseStep, hmv]
    simp [playStep, hmidi, hanchor, hpp]
    norm_num
  exact ⟨hreach, hmidi, hanchor, hplay, by rw [hplay]; norm_num⟩

/-- C7 amended: when not already Playing, `play()` takes the resume
branch (both anchors shifted by the pause duration) if and only if the
underlying player is Paused or the global anchor is off its zero
sentinel, and takes the fresh-start branch (anchors to `now` at measure
0) exactly when the player is not Paused and the anchor is at the
sentinel; the sentinel alone decides the branch only for a non-Paused
player, since a Paused state with a zero anchor is reachable. -/
theorem play_branch_amended (s : PState) (now : ℚ)
    (h : s.midi ≠ MidiState.Playing) :
    (s.midi = MidiState.Paused ∨ s.playbackStart ≠ 0 →
      playStep s now = playResume s now) ∧
    (s.midi ≠ MidiState.Paused ∧ s.playbackStart = 0 →
      playStep s now = playFresh s now) := by
  constructor
  · intro hc
    simp [playStep, h, hc, playResume]
  · intro hc
    simp [playStep, h, hc.1, hc.2, playFresh]

/-- Witness for C7 amended: from the freshly constructed state (not
Paused, anchor at the sentinel), `play()` at 7ms takes the fresh-start
branch. -/
theorem play_branch_amended_witness :
    playStep initState 7 = playFresh initState 7 :=
  (play_branch_amended initState 7 (by simp [initState])).2
    ⟨by simp [initState], rfl⟩

/-- C8 counterexample: an external vector with velocity 0 and position 5
received in the freshly constructed (Stopped, never-played) state leaves
the engine Stopped: `pause()` is a no-op unless the underlying player is
Playing, so the engine is not brought to Paused. -/
theorem timingsrc_change_counterexample :
    (handleChange initState 5 0 0).midi = MidiState.Stopped ∧
    (handleChange initState 5 0 0).midi ≠ MidiState.Paused := by
  have h : handleChange initState 5 0 0 = initState := by
    unfold handleChange pauseStep
    rw [if_pos rfl, if_neg (by norm_num : ¬((5 : ℚ) = 0)),
      if_neg (by simp [initState] : ¬(initState.midi = MidiState.Playing))]
  rw [h]
  exact ⟨rfl, by simp [initState]⟩

/-- C8 amended: on an external clock change, velocity 0 with position 0
puts the engine in exactly the post-rewind state of its current state;
velocity 0 with nonzero position invokes `pause()`, which yields Paused
when the engine was Playing and leaves the state unchanged otherwise;
nonzero velocity yields Playing. -/
theorem timingsrc_change_amended (s : PState) (position velocity now : ℚ) :
    (velocity = 0 → position = 0 →
      handleChange s position velocity now = rewindStep s) ∧
    (velocity = 0 → position ≠ 0 →
      handleChange s position velocity now = pauseStep s now ∧
      (s.midi = MidiState.Playing →
        (handleChange s position velocity now).midi = MidiState.Paused) ∧
      (s.midi ≠ MidiState.Playing →
        handleChange s position velocity now = s)) ∧
    (velocity ≠ 0 →
      (handleChange s position velocity now).midi = MidiState.Playing) := by
  refine ⟨?_, ?_, ?_⟩
  · intro hv hp
    simp [handleChange, hv, hp]
  · intro hv hp
    refine ⟨by simp [handleChange, hv, hp], ?_, ?_⟩
    · intro hm
      simp [handleChange, hv, hp, pauseStep, hm]
    · intro hm
      simp [handleChange, hv, hp, pauseStep, hm]
  · intro hv
    have h : handleChange s position velocity now = playStep s now := by
      unfold handleChange
      rw [if_neg hv]
    rw [h]
    unfold playStep
    split_ifs with h1 h2
    · exact h1
    · rfl
    · rfl

/-- Witness for C8 amended: in the freshly constructed state, the vector
{position 0, velocity 0} rewinds, {position 2, velocity 0} leaves the
engine Stopped, and {position 0, velocity 1} makes it Playing. -/
theorem timingsrc_change_amended_witness :
    handleChange initState 0 0 3 = rewindStep initState ∧
    (handleChange initState 2 0 3).midi = MidiState.Stopped ∧
    (handleChange initState 0 1 3).midi = MidiState.Playing := by
  refine ⟨(timingsrc_change_amended initState 0 0 3).1 rfl rfl, ?_, ?_⟩
  · rw [((timingsrc_change_amended initState 2 0 3).2.1 rfl (by norm_num)).2.2
      (by simp [initState])]
    simp [initState]
  · exact (timingsrc_change_amended initState 0 1 3).2.2 (by norm_num)

lemma eps_lt_one : EPS < 1 := by norm_num [EPS]

lemma not_eps_close {a b : ℚ} (h : 1 ≤ |a - b|) : ¬(|a - b| < EPS) := by
  intro hlt
  exact absurd (h.trans_lt (hlt.trans eps_lt_one)) (lt_irrefl 1)

/-- The timemap index built from the scenario timemap `raw4`. -/
def tm4 : Nat → Option MeasureRecord := buildTimemap raw4

lemma tm4_zero : tm4 0 = some ⟨0, 500⟩ := by
  simp only [tm4, buildTimemap, raw4, tmBuildFrom, tmStep, durOf]
  norm_num [List.getD]
  simp

lemma raw4_getD_two : raw4.getD 2 ⟨0, 0⟩ = ⟨0, 900⟩ := by
  simp [raw4, List.getD]

lemma raw4_two : raw4[(2 : Nat)]? = some ⟨0, 900⟩ := rfl

lemma toNat_two : Int.toNat 2 = 2 := rfl

lemma findEq_900 : findEqIdx 900 raw4 = some 2 := by
  simp only [raw4, findEqIdx]
  rw [if_neg (not_eps_close (by rw [le_abs]; norm_num)),
    if_neg (not_eps_close (by rw [le_abs]; norm_num)),
    if_pos (by rw [sub_self, abs_zero]; norm_num [EPS])]
  rfl

lemma findEq_950 : findEqIdx 950 raw4 = none := by
  simp only [raw4, findEqIdx]
  rw [if_neg (not_eps_close (by rw [le_abs]; norm_num)),
    if_neg (not_eps_close (by rw [le_abs]; norm_num)),
    if_neg (not_eps_close (by rw [le_abs]; norm_num)),
    if_neg (not_eps_close (by rw [le_abs]; norm_num))]
  rfl

lemma count_950 : countLt 950 raw4 = 3 := by
  simp only [raw4, countLt]
  rw [if_pos (by norm_num : (0 : ℚ) < 950), if_pos (by norm_num : (500 : ℚ) < 950),
    if_pos (by norm_num : (900 : ℚ) < 950), if_neg (by norm_num : ¬((1400 : ℚ) < 950))]

lemma bs_900 : binarySearch raw4 900 = 2 := by
  simp [binarySearch, findEq_900]

lemma bs_950 : binarySearch raw4 950 = -4 := by
  simp [binarySearch, findEq_950, count_950]

/-- C2: over the raw timemap `[{0,0}, {1,500}, {0,900}, {2,1400}]` (a
repeat back to measure 0), while Playing in measure 1, the tick at
elapsed timeline time 900ms resolves the repeat entry by floor binary
search on the raw (non-consolidated) sequence and re-anchors the measure;
the tick at elapsed time 950ms then resolves the position to measure 0
at measure offset 50ms (not measure 1), rendering the canonical start 0
of measure 0. -/
theorem sync_tick_repeat (s : PState) (now1 now2 : ℚ)
    (hmidi : s.midi = MidiState.Playing)
    (hmi : s.measureIndex = 1)
    (h1 : now1 - s.playbackStart = 900)
    (h2 : now2 - s.playbackStart = 950) :
    (tick raw4 tm4 (tick raw4 tm4 s now1) now2).measureIndex = 0 ∧
    (tick raw4 tm4 (tick raw4 tm4 s now1) now2).measureOffset = 50 ∧
    (tick raw4 tm4 (tick raw4 tm4 s now1) now2).rendered = (0, 0, 50) := by
  have hb1 : binarySearch raw4 (now1 - s.playbackStart) = 2 := by
    rw [h1]
    exact bs_900
  have hs1 : tick raw4 tm4 s now1 =
      { s with measureIndex := 0, measureStart := now1, measureOffset := 0,
               rendered := (0, 0, 0), renderedDur := some 500 } := by
    norm_num [tick, hmidi, hb1, hmi, raw4_two, toNat_two, tm4_zero, defaultRecord]
  rw [hs1]
  have hb2 : binarySearch raw4 (now2 - s.playbackStart) = -4 := by
    rw [h2]
    exact bs_950
  have h3 : now2 - now1 = 50 := by linarith
  norm_num [tick, hmidi, hb2, raw4_two, toNat_two, tm4_zero, defaultRecord, h3, max_def]

/-- A Playing state mid measure 1 of the scenario: global anchor at 0,
measure 1 entered at 500ms. -/
def c2s : PState :=
  { initState with measureIndex := 1, measureStart := 500,
                   midi := MidiState.Playing, rendered := (1, 500, 0) }

/-- Witness for C2: from `c2s`, the ticks at 900ms and 950ms land on
measure 0 at offset 50, rendering `{0, 0, 50}`. -/
theorem sync_tick_repeat_witness :
    (tick raw4 tm4 (tick raw4 tm4 c2s 900) 950).measureIndex = 0 ∧
    (tick raw4 tm4 (tick raw4 tm4 c2s 900) 950).measureOffset = 50 ∧
    (tick raw4 tm4 (tick raw4 tm4 c2s 900) 950).rendered = (0, 0, 50) :=
  sync_tick_repeat c2s 900 950 rfl rfl
    (by norm_num [c2s, initState]) (by norm_num [c2s, initState])

/-- A MIDI event as classified by the parse helper: a channel event
carries a channel field, a meta/system event does not. -/
inductive ParsedEvent where
  | channelEvent (channel : Nat) (bytes : List Nat)
  | metaEvent (bytes : List Nat)
deriving DecidableEq

/-- Modelled from the spec: the helper `parseMidiEvent` is imported from
`src/helpers`, which is not included under `src/`. Per the spec, it
parses the leading status byte of the event and classifies channel
events (note on/off, control, etc. — status bytes `0x80`-`0xEF`, which
carry a channel in the low nibble) versus meta/system events (status
`0xF0` and above); a leading byte below `0x80` is an unrecognized
(malformed) event, which yields no parsed event and is dropped. -/
def parseMidiEvent (data : List Nat) : Option ParsedEvent :=
  let b := data.headD 0
  if 128 ≤ b ∧ b ≤ 239 then some (ParsedEvent.channelEvent (b % 16) data)
  else if 240 ≤ b then some (ParsedEvent.metaEvent data) else none

/-- Whether a parsed event carries a channel field
(the `'channel' in event` test of `Player.send`). -/
def hasChannel : Option ParsedEvent → Bool
  | some (ParsedEvent.channelEvent _ _) => true
  | _ => false

/-- `Player.send` (lines 262-269) viewed as the output event router: the
list of events it forwards to the output sink for one incoming event —
nothing when muted, the event itself when it parses as a channel event,
nothing otherwise (Web MIDI sinks do not accept meta messages). -/
def routerSend (mute : Bool) (data : List Nat) : List (List Nat) :=
  if mute then []
  else if hasChannel (parseMidiEvent data) then [data] else []

lemma hasChannel_parse_channel {data : List Nat}
    (h : 128 ≤ data.headD 0 ∧ data.headD 0 ≤ 239) :
    hasChannel (parseMidiEvent data) = true := by
  unfold parseMidiEvent
  rw [if_pos h]
  rfl

lemma hasChannel_parse_not {data : List Nat}
    (h : ¬(128 ≤ data.headD 0 ∧ data.headD 0 ≤ 239)) :
    hasChannel (parseMidiEvent data) = false := by
  unfold parseMidiEvent
  rw [if_neg h]
  by_cases h2 : 240 ≤ data.headD 0
  · rw [if_pos h2]
    rfl
  · rw [if_neg h2]
    rfl

/-- C9: when the mute flag is set no event reaches the output sink
regardless of its type; when mute is not set, the event is forwarded to
the sink exactly when its leading status byte classifies it as a channel
event (status `0x80`-`0xEF`), so meta and other non-channel events never
reach the sink. -/
theorem router_send_filters (mute : Bool) (data : List Nat) :
    (mute = true → routerSend mute data = []) ∧
    (mute = false →
      (routerSend mute data = [data] ↔ 128 ≤ data.headD 0 ∧ data.headD 0 ≤ 239) ∧
      (¬(128 ≤ data.headD 0 ∧ data.headD 0 ≤ 239) → routerSend mute data = [])) := by
  constructor
  · intro hm
    simp [routerSend, hm]
  · intro hm
    have hr : routerSend mute data
        = if hasChannel (parseMidiEvent data) then [data] else [] := by
      simp [routerSend, hm]
    by_cases hch : 128 ≤ data.headD 0 ∧ data.headD 0 ≤ 239
    · rw [hr, hasChannel_parse_channel hch]
      refine ⟨⟨fun _ => hch, fun _ => by simp⟩, fun hcon => absurd hch hcon⟩
    · rw [hr, hasChannel_parse_not hch]
      refine ⟨⟨fun habs => ?_, fun hr2 => absurd hr2 hch⟩, fun _ => by simp⟩
      simp at habs

/-- Witness for C9: a muted note-on is dropped; unmuted, a note-on
(status `0x90`) is forwarded and a meta marker (status `0xFF`) is not. -/
theorem router_send_filters_witness :
    routerSend true [144, 60, 100] = [] ∧
    routerSend false [144, 60, 100] = [[144, 60, 100]] ∧
    routerSend false [255, 6, 0] = [] := by
  refine ⟨(router_send_filters true [144, 60, 100]).1 rfl, ?_, ?_⟩
  · exact ((router_send_filters false [144, 60, 100]).2 rfl).1.mpr (by norm_num)
  · exact ((router_send_filters false [255, 6, 0]).2 rfl).2 (by norm_num)

/-- One active or finished note tracked by the built-in synthesizer sink
`SoundFontOutput`: channel, pitch, velocity, the on timestamp, and the
off timestamp (`null` while the note is still sounding). -/
structure TNote where
  channel : Nat
  pitch : Nat
  velocity : Nat
  onTime : ℚ
  offTime : Option ℚ
deriving DecidableEq

/-- `SoundFontOutput.noteOff` (part_001 lines 160-168): find the first
tracked note with the given pitch and channel that is still sounding
(`off === null`) and set its off timestamp. -/
def sfNoteOff : List TNote → Nat → Nat → ℚ → List TNote
  | [], _, _, _ => []
  | n :: rest, ch, p, ts =>
    if n.pitch = p ∧ n.channel = ch ∧ n.offTime = none then
      { n with offTime := some ts } :: rest
    else n :: sfNoteOff rest ch p ts

/-- `SoundFontOutput.noteOn` (part_001 lines 126-158) restricted to its
note-tracking effect: push a new sounding note (the audio envelope side
is external to the model). -/
def sfNoteOn (notes : List TNote) (ch p : Nat) (ts : ℚ) (vel : Nat) : List TNote :=
  notes ++ [⟨ch, p, vel, ts, none⟩]

/-- `SoundFontOutput.send` (part_001 lines 104-124) viewed on the tracked
note list: decode channel (`data[0] & 0xf`), type (`data[0] >> 4`),
pitch and velocity from the leading 3-byte unit; type 9 with positive
velocity starts a note, type 9 with velocity 0 and type 8 end one; then
recurse on the remaining bytes when the buffer holds more than 3. -/
def sfSend (notes : List TNote) (data : List Nat) (ts : ℚ) : List TNote :=
  let status := data.headD 0
  let ch := status % 16
  let ty := status / 16
  let p := data.getD 1 0
  let vel := data.getD 2 0
  let notes2 :=
    if ty = 9 then
      if 0 < vel then sfNoteOn notes ch p ts vel else sfNoteOff notes ch p ts
    else if ty = 8 then sfNoteOff notes ch p ts
    else notes
  if 3 < data.length then sfSend notes2 (data.drop 3) ts else notes2
termination_by data.length
decreasing_by simp [List.length_drop]; omega

lemma sfNoteOff_split (pre : List TNote) (n : TNote) (post : List TNote)
    (ch p : Nat) (ts : ℚ)
    (hpre : ∀ m ∈ pre, ¬(m.pitch = p ∧ m.channel = ch ∧ m.offTime = none))
    (hn : n.pitch = p ∧ n.channel = ch ∧ n.offTime = none) :
    sfNoteOff (pre ++ n :: post) ch p ts = pre ++ { n with offTime := some ts } :: post := by
  induction pre with
  | nil =>
      simp only [List.nil_append, sfNoteOff]
      rw [if_pos hn]
  | cons m rest ih =>
      have hm : ¬(m.pitch = p ∧ m.channel = ch ∧ m.offTime = none) :=
        hpre m (by simp)
      have hrest : ∀ m2 ∈ rest, ¬(m2.pitch = p ∧ m2.channel = ch ∧ m2.offTime = none) :=
        fun m2 hm2 => hpre m2 (by simp [hm2])
      simp only [List.cons_append, sfNoteOff]
      rw [if_neg hm, List.append_eq, ih hrest]

/-- C10: a 3-byte event with status type 9 (note-on) and velocity 0 sent
to the built-in synthesizer sink is treated as a note-off: it terminates
the first matching still-sounding note on that channel and pitch (its
off timestamp is set) and no new note is started (the note list keeps
its length). -/
theorem soundfont_noteon_zero_velocity (notes pre post : List TNote)
    (n : TNote) (c p : Nat) (ts : ℚ) (hc : c < 16)
    (hsp : notes = pre ++ n :: post)
    (hpre : ∀ m ∈ pre, ¬(m.pitch = p ∧ m.channel = c ∧ m.offTime = none))
    (hn : n.pitch = p ∧ n.channel = c ∧ n.offTime = none) :
    sfSend notes [144 + c, p, 0] ts = pre ++ { n with offTime := some ts } :: post ∧
    (sfSend notes [144 + c, p, 0] ts).length = notes.length := by
  have hch : (144 + c) % 16 = c := by omega
  have hty : (144 + c) / 16 = 9 := by omega
  have hsend : sfSend notes [144 + c, p, 0] ts = sfNoteOff notes c p ts := by
    unfold sfSend
    simp [hch, hty]
  rw [hsend, hsp, sfNoteOff_split pre n post c p ts hpre hn]
  simp

/-- Witness for C10: sending `[0x90, 60, 0]` to a sink tracking one
sounding note at channel 0, pitch 60 closes that note and adds none. -/
theorem soundfont_noteon_zero_velocity_witness :
    sfSend [⟨0, 60, 100, 0, none⟩] [144 + 0, 60, 0] 5
      = [⟨0, 60, 100, 0, some 5⟩] ∧
    (sfSend [⟨0, 60, 100, 0, none⟩] [144 + 0, 60, 0] 5).length
      = [(⟨0, 60, 100, 0, none⟩ : TNote)].length := by
  have h := soundfont_noteon_zero_velocity [⟨0, 60, 100, 0, none⟩] [] []
    ⟨0, 60, 100, 0, none⟩ 0 60 5 (by omega) (by simp)
    (by intro m hm; simp at hm) (by simp)
  simpa using h

end AudioFE
